import Mathlib

/-!
Shallow embedding of `src/api/Collection.py` (the `Arty` collection core):
the `CollectionImage` and `Collection` dataclasses, the sidecar JSON codec
(`CollectionManager.__write_meta` / `__load_meta`), the directory scan and
reconciliation loop (`CollectionManager.__check_files`), `CollectionManager.load`,
and the mutating operations `Collection.add_image` / `Collection.set_collection`.

File-system state is made explicit: a managed directory is a list of named
entries (files or sub-directories) plus the optional `.collection` sidecar
file; `os.listdir` becomes a projection of that state, and every operation
that writes to disk returns the updated directory state.  Python exceptions
become `Except` / `Option` results.  The JSON layer is modelled at the level
of parsed JSON values (`json.dumps` / `json.loads` string round-tripping is a
library guarantee and is not re-modelled).
-/

/-- Parsed JSON values, as produced by Python's `json` module for the shapes
the sidecar codec actually uses. -/
inductive JValue where
  | null
  | str (s : String)
  | arr (xs : List JValue)
  | obj (fields : List (String × JValue))

/-- The `CollectionImage` dataclass: a filename plus optional free-text
metadata fields, in source declaration order. -/
structure CollectionImage where
  filename : String
  title : Option String := none
  artist : Option String := none
  year : Option String := none
  technique : Option String := none
  conservation_site : Option String := none
  production_site : Option String := none
  dimensions : Option String := none
deriving DecidableEq

/-- The `Collection` dataclass: a work directory, a display title and the
ordered image list. -/
structure Collection where
  work_directory : String
  title : Option String := some "Untitled Collection"
  collection : List CollectionImage := []
deriving DecidableEq

/-- Constant `CollectionManager.AUTHORIZED_IMAGE_FORMATS`. -/
def AUTHORIZED_IMAGE_FORMATS : List String := [".jpg", ".jpeg", ".png", ".webp", ".tiff"]

/-- Constant `CollectionManager.META_FILENAME`. -/
def META_FILENAME : String := ".collection"

/-- Model of `filename.lower().endswith(CollectionManager.AUTHORIZED_IMAGE_FORMATS)`:
Python's `str.endswith` on a tuple succeeds when any suffix matches. -/
def authorizedName (name : String) : Bool :=
  AUTHORIZED_IMAGE_FORMATS.any (fun ext => ext.data.isSuffixOf (name.data.map Char.toLower))

/-- A bare image: only `filename` set, as constructed by `CollectionImage(filename)`. -/
def bare (name : String) : CollectionImage := { filename := name }

/-- Python's `in` test on the image list: `CollectionImage.__eq__` compares
`filename` only, so membership is a filename lookup. -/
def member (name : String) (imgs : List CollectionImage) : Bool :=
  imgs.any (fun i => i.filename == name)

/-- The loop body of `CollectionManager.__check_files`, as a function of the
directory listing it iterates over: every listed name with an authorized
extension that is not yet in the collection (by the filename identity rule)
is appended as a bare image. -/
def check_files (imgs : List CollectionImage) : List String → List CollectionImage
  | [] => imgs
  | f :: rest =>
    if authorizedName f && !member f imgs then check_files (imgs ++ [bare f]) rest
    else check_files imgs rest

/-- Serialization of an optional string field (`dataclasses_json` writes
`None` as JSON `null`). -/
def encodeOptStr : Option String → JValue
  | none => .null
  | some s => .str s

/-- Model of `CollectionImage.to_dict`: all eight fields, in dataclass field order. -/
def encodeImage (img : CollectionImage) : JValue :=
  .obj [("filename", .str img.filename),
        ("title", encodeOptStr img.title),
        ("artist", encodeOptStr img.artist),
        ("year", encodeOptStr img.year),
        ("technique", encodeOptStr img.technique),
        ("conservation_site", encodeOptStr img.conservation_site),
        ("production_site", encodeOptStr img.production_site),
        ("dimensions", encodeOptStr img.dimensions)]

/-- Model of `CollectionManager.__write_meta`'s payload: `collection.to_json()` parsed
back to a JSON value (the dump with `indent=4` does not change the value). -/
def encodeCollection (c : Collection) : JValue :=
  .obj [("work_directory", .str c.work_directory),
        ("title", encodeOptStr c.title),
        ("collection", .arr (c.collection.map encodeImage))]

/-- Key lookup in a JSON object (Python `dict` access / `.get`). -/
def jlookup (fields : List (String × JValue)) (key : String) : Option JValue :=
  match fields with
  | [] => none
  | (k, v) :: rest => if k == key then some v else jlookup rest key

/-- A JSON value read back as a Python `str`, failing on any other shape. -/
def asStr : JValue → Option String
  | .str s => some s
  | _ => none

/-- A JSON value read back as an optional string: `null` is `None`. -/
def decodeOptStr : JValue → Option (Option String)
  | .null => some none
  | .str s => some (some s)
  | _ => none

/-- One optional field under `dataclasses_json.from_dict`: a missing key
falls back to the dataclass default `None`. -/
def getOptField (fields : List (String × JValue)) (key : String) : Option (Option String) :=
  match jlookup fields key with
  | none => some none
  | some v => decodeOptStr v

/-- Model of `CollectionImage.from_dict`: `filename` is required, the other fields
default to `None`; unknown keys are ignored. -/
def decodeImage : JValue → Option CollectionImage
  | .obj fields => do
      let fn ← (jlookup fields "filename").bind asStr
      let t ← getOptField fields "title"
      let a ← getOptField fields "artist"
      let y ← getOptField fields "year"
      let te ← getOptField fields "technique"
      let cs ← getOptField fields "conservation_site"
      let ps ← getOptField fields "production_site"
      let d ← getOptField fields "dimensions"
      some ⟨fn, t, a, y, te, cs, ps, d⟩
  | _ => none

/-- The list comprehension `[CollectionImage.from_dict(item) for item in ...]`:
the first failing item aborts the whole load. -/
def decodeImages : List JValue → Option (List CollectionImage)
  | [] => some []
  | x :: xs => do
      let i ← decodeImage x
      let rest ← decodeImages xs
      some (i :: rest)

/-- Model of `CollectionManager.__load_meta`'s data extraction: `coll_dict["title"]`
and `[CollectionImage.from_dict(item) for item in coll_dict["collection"]]`;
any exception (missing key, wrong shape) is a decode failure. -/
def decodeMeta : JValue → Option (Option String × List CollectionImage)
  | .obj fields => do
      let tj ← jlookup fields "title"
      let t ← decodeOptStr tj
      let cj ← jlookup fields "collection"
      let imgs ← (match cj with
                  | .arr xs => decodeImages xs
                  | _ => none)
      some (t, imgs)
  | _ => none

/-- One child of the managed directory (other than the sidecar file): its
name and whether it is a sub-directory. -/
structure Entry where
  name : String
  isDir : Bool
deriving DecidableEq

/-- Content of the sidecar file on disk: either text that parses as a JSON
value, or text that does not (an empty file, as written by
`CollectionManager.__create_meta`, is in the second class). -/
inductive Sidecar where
  | json (j : JValue)
  | invalid

/-- The observable state of one managed directory: its children and the
optional `.collection` sidecar file. -/
structure Dir where
  entries : List Entry
  sidecar : Option Sidecar

/-- Model of `os.listdir` on the managed directory: names of all direct children,
files and sub-directories alike, the sidecar file included when present. -/
def listdir (d : Dir) : List String :=
  (if d.sidecar.isSome then [META_FILENAME] else []) ++ d.entries.map Entry.name

/-- The directory scan performed by the `__check_files` loop: the listed
names kept by the extension filter.  The filter looks at the name only —
the entry's kind is never consulted. -/
def scan (d : Dir) : List String :=
  (listdir d).filter authorizedName

/-- Model of `CollectionManager.save` / `__write_meta`: overwrite the sidecar file
with the serialized collection. -/
def save (c : Collection) (d : Dir) : Dir :=
  { d with sidecar := some (.json (encodeCollection c)) }

/-- Errors surfaced by `CollectionManager.load`: `FileNotFoundError` from
the empty-listing precondition (or from `os.listdir` on a missing path),
and any other exception (malformed sidecar JSON, missing keys, ...). -/
inductive LoadError where
  | fileNotFound
  | other
deriving DecidableEq

/-- Model of `CollectionManager.load`: reject an unlistable or empty directory, then
load the sidecar if present (else create an empty sidecar file and start
from the default collection), reconcile against the listing, and persist.
Returns the resulting directory state together with the outcome; on an
error the raise happens before any write, so the state is unchanged. -/
def load (path : String) (dir : Option Dir) : Option Dir × Except LoadError Collection :=
  match dir with
  | none => (none, .error .fileNotFound)
  | some d =>
    if (listdir d).isEmpty then (some d, .error .fileNotFound)
    else
      match d.sidecar with
      | some (.json j) =>
        match decodeMeta j with
        | none => (some d, .error .other)
        | some (t, imgs) =>
          let c : Collection := ⟨path, t, check_files imgs (listdir d)⟩
          (some (save c d), .ok c)
      | some .invalid => (some d, .error .other)
      | none =>
        let d1 : Dir := { d with sidecar := some .invalid }
        let c : Collection := ⟨path, some "Untitled Collection", check_files [] (listdir d1)⟩
        (some (save c d1), .ok c)

/-- The input cleaning at the top of `Collection.add_image`: strip a
`b'...'` wrapper left by byte-string coercion. -/
def cleanSource (s : String) : String :=
  if "b'".data.isPrefixOf s.data && "'".data.isSuffixOf s.data then
    ⟨(s.data.drop 2).dropLast⟩
  else s

/-- Model of `ntpath.basename`: the part of the path after the last `/` or `\`
separator (drive-letter handling is irrelevant to the paths used here). -/
def ntbasename (s : String) : String :=
  ⟨s.data.foldl (fun acc c => if c == '/' || c == '\\' then [] else acc ++ [c]) []⟩

/-- Model of `os.path.join` of the work directory and a relative filename. -/
def pathJoin (a b : String) : String :=
  if "/".data.isSuffixOf a.data then a ++ b else a ++ "/" ++ b

/-- Model of `shutil.copyfile` into the managed directory: creating the destination
adds a plain-file child; overwriting an existing child leaves the listing
unchanged. -/
def copyInto (entries : List Entry) (name : String) : List Entry :=
  if entries.any (fun e => e.name == name) then entries else entries ++ [⟨name, false⟩]

/-- Errors surfaced by `Collection.add_image`: the `ValueError` for an
unauthorized extension, and `shutil.SameFileError` when the source already
is the destination file. -/
inductive AddError where
  | unsupportedFormat
  | sameFile
deriving DecidableEq

/-- Model of `Collection.add_image`: clean the source path, take its base filename,
reject unauthorized extensions, copy the file into the work directory
(`SameFileError` when the source is the destination), append a bare image
— unconditionally, with no membership check — and save.  Returns the
outcome together with the resulting collection and directory state; on an
error the raise happens before any mutation. -/
def add_image (c : Collection) (source : String) (d : Dir) :
    Except AddError CollectionImage × Collection × Dir :=
  let src := cleanSource source
  let file_name := ntbasename src
  if !authorizedName file_name then (.error .unsupportedFormat, c, d)
  else if src == pathJoin c.work_directory file_name then (.error .sameFile, c, d)
  else
    let img := bare file_name
    let c' := { c with collection := c.collection ++ [img] }
    (.ok img, c', save c' { d with entries := copyInto d.entries file_name })

/-- Model of `Collection.set_collection`: replace the image list and save. -/
def set_collection (c : Collection) (l : List CollectionImage) (d : Dir) :
    Collection × Dir :=
  let c' := { c with collection := l }
  (c', save c' d)

/-- Python's `str()` of a format argument: `None` renders as the literal
text `"None"`. -/
def pyStr : Option String → String
  | none => "None"
  | some s => s

/-- Model of `CollectionImage.to_reference`: the citation string built by the format
call, with the placeholders in the order of the format string — artist (if
truthy), title, production site (if artist falsy), year, technique,
dimensions, conservation site.  `None + ", "` on a required field is a
`TypeError`, modelled as `none`; the conservation site is passed to
`format` as-is, so `None` there renders as the text `"None"`. -/
def to_reference (img : CollectionImage) : Option String :=
  let artist_if_artist : String :=
    match img.artist with
    | some a => if a.data.isEmpty then "" else a ++ ", "
    | none => ""
  do
    let title_part ← img.title.map (· ++ ", ")
    let production_site_if_no_artist ←
      (match img.artist with
       | some a => if a.data.isEmpty then img.production_site.map (· ++ ", ") else some ""
       | none => img.production_site.map (· ++ ", "))
    let date ← img.year.map (· ++ ", ")
    let technique_part ← img.technique.map (· ++ ", ")
    let dimensions_part ← img.dimensions.map (· ++ ", ")
    some (artist_if_artist ++ title_part ++ production_site_if_no_artist ++ date ++
          technique_part ++ dimensions_part ++ pyStr img.conservation_site)

/-! ## Codec round-trip (claim C3) -/

theorem decodeOptStr_encodeOptStr (o : Option String) :
    decodeOptStr (encodeOptStr o) = some o := by
  cases o <;> rfl

theorem decodeImage_encodeImage (img : CollectionImage) :
    decodeImage (encodeImage img) = some img := by
  obtain ⟨fn, t, a, y, te, cs, ps, d⟩ := img
  simp [decodeImage, encodeImage, jlookup, getOptField, asStr,
        decodeOptStr_encodeOptStr]

theorem decodeImages_map_encodeImage (imgs : List CollectionImage) :
    decodeImages (imgs.map encodeImage) = some imgs := by
  induction imgs with
  | nil => rfl
  | cons i rest ih =>
    simp [decodeImages, decodeImage_encodeImage, ih]

/-- Claim C3: the sidecar codec round-trips — decoding the JSON produced by
`__write_meta` for any collection recovers the title and the ordered image
list, every optional metadata field included, unchanged. -/
theorem decodeMeta_encodeCollection (c : Collection) :
    decodeMeta (encodeCollection c) = some (c.title, c.collection) := by
  obtain ⟨wd, t, imgs⟩ := c
  simp [decodeMeta, encodeCollection, jlookup, decodeOptStr_encodeOptStr,
        decodeImages_map_encodeImage]

/-! ## Reconciliation algebra (claims C1, C2, C4) -/

theorem member_append_bare (g f : String) (imgs : List CollectionImage) :
    member g (imgs ++ [bare f]) = (member g imgs || f == g) := by
  simp [member, bare, List.any_append]

theorem member_check_files_mono (g : String) (imgs : List CollectionImage)
    (listing : List String) (h : member g imgs = true) :
    member g (check_files imgs listing) = true := by
  induction listing generalizing imgs with
  | nil => exact h
  | cons f rest ih =>
    simp only [check_files]
    split
    · exact ih _ (by simp [member_append_bare, h])
    · exact ih _ h

theorem member_check_files_of_mem (g : String) (imgs : List CollectionImage)
    (listing : List String) (hmem : g ∈ listing) (hauth : authorizedName g = true) :
    member g (check_files imgs listing) = true := by
  induction listing generalizing imgs with
  | nil => cases hmem
  | cons f rest ih =>
    simp only [check_files]
    rcases List.mem_cons.mp hmem with rfl | hg
    · by_cases hm : member g imgs
      · rw [if_neg (by simp [hauth, hm])]
        exact member_check_files_mono g imgs rest hm
      · rw [if_pos (by simp [hauth, hm])]
        exact member_check_files_mono g _ rest (by simp [member_append_bare])
    · split
      · exact ih _ hg
      · exact ih _ hg

theorem check_files_of_all_member (imgs : List CollectionImage) (listing : List String)
    (h : ∀ g ∈ listing, authorizedName g = true → member g imgs = true) :
    check_files imgs listing = imgs := by
  induction listing with
  | nil => rfl
  | cons f rest ih =>
    simp only [check_files]
    split
    · rename_i hc
      rw [Bool.and_eq_true, Bool.not_eq_eq_eq_not, Bool.not_true] at hc
      exact absurd (h f (List.mem_cons_self f rest) hc.1) (by simp [hc.2])
    · exact ih (fun g hg ha => h g (List.mem_cons_of_mem f hg) ha)

/-- Claim C4: reconciliation is idempotent — running `__check_files` a
second time against the same directory listing changes nothing. -/
theorem check_files_idempotent (imgs : List CollectionImage) (listing : List String) :
    check_files (check_files imgs listing) listing = check_files imgs listing :=
  check_files_of_all_member _ _
    (fun g hg ha => member_check_files_of_mem g imgs listing hg ha)

/-- Filename membership in a list of names (the identity rule applied to
names directly). -/
def knownMember (f : String) (known : List String) : Bool :=
  known.any (fun k => k == f)

theorem member_eq_knownMember (f : String) (imgs : List CollectionImage) :
    member f imgs = knownMember f (imgs.map CollectionImage.filename) := by
  induction imgs with
  | nil => rfl
  | cons i rest ih =>
    simp only [member, knownMember, List.map_cons, List.any_cons] at ih ⊢
    rw [ih]

/-- The names `__check_files` discovers, in listing order: the authorized
names not already known, each kept at its first occurrence. -/
def newNames (known : List String) : List String → List String
  | [] => []
  | f :: rest =>
    if authorizedName f && !knownMember f known then f :: newNames (known ++ [f]) rest
    else newNames known rest

theorem map_filename_append_bare (imgs : List CollectionImage) (f : String) :
    (imgs ++ [bare f]).map CollectionImage.filename
      = imgs.map CollectionImage.filename ++ [f] := by
  simp [bare]

/-- Claim C2 (amended): reconciliation returns the existing images first,
unchanged and in order (in particular no stale entry is pruned), and then
the bare images for the newly discovered authorized filenames — in the
order of the directory listing, not sorted. -/
theorem check_files_append_new (imgs : List CollectionImage) (listing : List String) :
    check_files imgs listing
      = imgs ++ (newNames (imgs.map CollectionImage.filename) listing).map bare := by
  induction listing generalizing imgs with
  | nil => simp [check_files, newNames]
  | cons f rest ih =>
    simp only [check_files, newNames, member_eq_knownMember]
    split
    · rw [ih (imgs ++ [bare f]), map_filename_append_bare]
      simp
    · exact ih imgs

theorem not_mem_map_filename_of_member_false {f : String} {imgs : List CollectionImage}
    (h : member f imgs = false) : f ∉ imgs.map CollectionImage.filename := by
  intro hmem
  rcases List.mem_map.mp hmem with ⟨i, hi, hfi⟩
  have : member f imgs = true := by
    simp only [member, List.any_eq_true]
    exact ⟨i, hi, by simp [hfi]⟩
  simp [this] at h

/-- Claim C1 (amended): the reconciliation performed during `load` preserves
the no-duplicate-filename invariant of the image list. -/
theorem check_files_nodup (imgs : List CollectionImage) (listing : List String)
    (h : (imgs.map CollectionImage.filename).Nodup) :
    ((check_files imgs listing).map CollectionImage.filename).Nodup := by
  induction listing generalizing imgs with
  | nil => exact h
  | cons f rest ih =>
    simp only [check_files]
    split
    · rename_i hc
      rw [Bool.and_eq_true, Bool.not_eq_eq_eq_not, Bool.not_true] at hc
      refine ih _ ?_
      rw [map_filename_append_bare]
      simp only [List.nodup_append, List.nodup_cons, List.not_mem_nil, not_false_iff,
        List.nodup_nil, and_true, true_and]
      refine ⟨h, ?_⟩
      intro a ha hb
      simp only [List.mem_singleton] at hb
      subst hb
      exact not_mem_map_filename_of_member_false hc.2 ha
    · exact ih _ h

/-! ## Claim C1: duplicate filenames -/

/-- A collection that already contains `a.jpg`. -/
def dupC : Collection := ⟨"/coll", some "Untitled Collection", [bare "a.jpg"]⟩

/-- Its managed directory, holding the file `a.jpg` and no sidecar yet. -/
def dupD : Dir := ⟨[⟨"a.jpg", false⟩], none⟩

/-- Claim C1 (counterexample): `add_image` appends without any membership
check, so adding a source whose base filename equals that of an image
already in the collection succeeds and leaves the list with two entries of
equal filename — the duplicate is not rejected. -/
theorem add_image_duplicate_counterexample :
    (add_image dupC "/tmp/a.jpg" dupD).1 = Except.ok (bare "a.jpg") ∧
    (add_image dupC "/tmp/a.jpg" dupD).2.1.collection = [bare "a.jpg", bare "a.jpg"] ∧
    ¬ (((add_image dupC "/tmp/a.jpg" dupD).2.1.collection).map
        CollectionImage.filename).Nodup :=
  ⟨rfl, rfl, by decide⟩

/-- Witness for `check_files_nodup` at a concrete run: reconciling a
one-image collection against a two-file listing keeps filenames unique. -/
theorem check_files_nodup_witness :
    ((check_files [bare "a.jpg"] ["a.jpg", "b.jpg"]).map CollectionImage.filename).Nodup :=
  check_files_nodup [bare "a.jpg"] ["a.jpg", "b.jpg"] (by decide)

/-! ## Claim C2: order of newly discovered files -/

/-- Claim C2 (counterexample): `__check_files` appends newly discovered
files in the order of the directory listing, which need not be
lexicographic — with the listing `["b.jpg", "a.jpg"]` the new images are
appended as `b.jpg` then `a.jpg`, not sorted. -/
theorem check_files_order_counterexample :
    check_files [] ["b.jpg", "a.jpg"] = [bare "b.jpg", bare "a.jpg"] ∧
    check_files [] ["b.jpg", "a.jpg"] ≠ [bare "a.jpg", bare "b.jpg"] :=
  ⟨by decide, by decide⟩

/-! ## Claim C5: every mutation saves synchronously -/

/-- Claim C5: `add_image` (on success) and `set_collection` both write the
sidecar before returning, and what they write is exactly the encoding of
the collection they return — the persisted state is never stale. -/
theorem save_on_mutation :
    (∀ c source d r c' d', add_image c source d = (Except.ok r, c', d') →
        d'.sidecar = some (Sidecar.json (encodeCollection c'))) ∧
    (∀ c l d, ((set_collection c l d).2).sidecar
        = some (Sidecar.json (encodeCollection (set_collection c l d).1))) := by
  constructor
  · intro c source d r c' d' h
    simp only [add_image] at h
    split at h
    · simp at h
    · split at h
      · simp at h
      · simp only [Prod.mk.injEq] at h
        obtain ⟨-, h2, h3⟩ := h
        subst h2 h3
        rfl
  · intro c l d
    rfl

/-- A fresh one-file directory and an empty collection, used to exercise
`save_on_mutation` on a successful `add_image`. -/
def freshC : Collection := ⟨"/coll", some "Untitled Collection", []⟩

/-- Witness for `save_on_mutation` at a concrete successful `add_image`. -/
theorem save_on_mutation_witness :
    ((add_image freshC "/tmp/b.png" ⟨[], none⟩).2.2).sidecar
      = some (Sidecar.json (encodeCollection (add_image freshC "/tmp/b.png" ⟨[], none⟩).2.1)) :=
  save_on_mutation.1 freshC "/tmp/b.png" ⟨[], none⟩ (bare "b.png")
    (add_image freshC "/tmp/b.png" ⟨[], none⟩).2.1
    (add_image freshC "/tmp/b.png" ⟨[], none⟩).2.2 rfl

/-! ## Claim C6: what the directory scan admits -/

/-- The scan as the specification words it: only the direct children that
are files (non-file entries excluded) and whose lowercased name ends with
an authorized extension.  Stated for comparison with `scan`. -/
def scanSpecified (d : Dir) : List String :=
  (d.entries.filter fun e => authorizedName e.name && !e.isDir).map Entry.name

/-- Claim C6 (counterexample): the scan filter looks only at the name, so a
sub-directory whose name ends in `.jpg` is admitted, where the claim says
non-file entries are excluded. -/
theorem scan_admits_directories :
    scan ⟨[⟨"sub.jpg", true⟩], none⟩ = ["sub.jpg"] ∧
    scanSpecified ⟨[⟨"sub.jpg", true⟩], none⟩ = [] ∧
    scan ⟨[⟨"sub.jpg", true⟩], none⟩ ≠ scanSpecified ⟨[⟨"sub.jpg", true⟩], none⟩ :=
  ⟨rfl, rfl, by decide⟩

/-- Claim C6 (amended): the scan admits exactly the listed names — of files
and sub-directories alike — whose lowercased name ends with one of the
authorized extensions. -/
theorem scan_mem_iff (d : Dir) (n : String) :
    n ∈ scan d ↔ n ∈ listdir d ∧ authorizedName n = true := by
  simp [scan, List.mem_filter]

/-! ## Claim C8: unsupported format is rejected atomically -/

/-- Claim C8: when the base filename's extension is not authorized,
`add_image` fails with the unsupported-format `ValueError` before copying,
appending or saving — the collection and the directory state are returned
unchanged. -/
theorem add_image_unsupported (c : Collection) (source : String) (d : Dir)
    (h : authorizedName (ntbasename (cleanSource source)) = false) :
    add_image c source d = (Except.error AddError.unsupportedFormat, c, d) := by
  unfold add_image
  simp [h]

/-- Witness for `add_image_unsupported`: adding `/tmp/doc.pdf` fails and
changes nothing. -/
theorem add_image_unsupported_witness :
    add_image freshC "/tmp/doc.pdf" ⟨[], none⟩
      = (Except.error AddError.unsupportedFormat, freshC, ⟨[], none⟩) :=
  add_image_unsupported freshC "/tmp/doc.pdf" ⟨[], none⟩ (by decide)

/-! ## Claim C9: load's empty-or-missing precondition -/

/-- Claim C9: `load` fails with `FileNotFoundError` exactly when the path
cannot be listed or its listing is empty; in that case nothing is written
(the directory state is returned untouched), and any directory with at
least one entry passes this precondition. -/
theorem load_empty_or_missing :
    (∀ path, load path none = (none, Except.error LoadError.fileNotFound)) ∧
    (∀ path d, listdir d = [] →
        load path (some d) = (some d, Except.error LoadError.fileNotFound)) ∧
    (∀ path d, listdir d ≠ [] →
        (load path (some d)).2 ≠ Except.error LoadError.fileNotFound) := by
  refine ⟨fun path => rfl, ?_, ?_⟩
  · intro path d h
    simp [load, h]
  · intro path d h
    have hne : (listdir d).isEmpty = false := by
      rw [List.isEmpty_eq_false_iff_exists_mem]
      rcases List.exists_mem_of_ne_nil _ h with ⟨x, hx⟩
      exact ⟨x, hx⟩
    obtain ⟨entries, sc⟩ := d
    cases sc with
    | none => simp [load, hne]
    | some s =>
      cases s with
      | invalid => simp [load, hne]
      | json j =>
        cases hdm : decodeMeta j with
        | none => simp [load, hne, hdm]
        | some ti => simp [load, hne, hdm]

/-- Witness for `load_empty_or_missing`: a missing path, an empty directory
and a one-file directory. -/
theorem load_empty_or_missing_witness :
    load "/coll" none = (none, Except.error LoadError.fileNotFound) ∧
    load "/coll" (some ⟨[], none⟩) = (some ⟨[], none⟩, Except.error LoadError.fileNotFound) ∧
    (load "/coll" (some ⟨[⟨"a.jpg", false⟩], none⟩)).2 ≠ Except.error LoadError.fileNotFound :=
  ⟨load_empty_or_missing.1 "/coll",
   load_empty_or_missing.2.1 "/coll" ⟨[], none⟩ rfl,
   load_empty_or_missing.2.2 "/coll" ⟨[⟨"a.jpg", false⟩], none⟩ (by decide)⟩

/-! ## Claim C7: the citation format -/

theorem data_isEmpty_false {a : String} (h : a ≠ "") : a.data.isEmpty = false := by
  cases a with
  | mk l =>
    simp only [ne_eq, String.ext_iff] at h
    simpa [List.isEmpty_iff] using h

/-- An image with the artist unset and every other field set, exposing the
position of the production site in the rendered reference. -/
def noArtistImg : CollectionImage :=
  ⟨"f.jpg", some "T", none, some "Y", some "Te", some "C", some "P", some "D"⟩

/-- Claim C7 (counterexample): with the artist unset, `to_reference`
renders the title before the production site — `"T, P, Y, Te, D, C"` — and
not the production site before the title as the claim states. -/
theorem to_reference_order_counterexample :
    to_reference noArtistImg = some "T, P, Y, Te, D, C" ∧
    to_reference noArtistImg ≠ some "P, T, Y, Te, D, C" :=
  ⟨rfl, by decide⟩

/-- Claim C7 (amended): `to_reference` concatenates artist (when set and
non-empty) with `", "`, then title, then — only when the artist is absent —
the production site, then year, technique, dimensions, and finally the
conservation site with no trailing separator.  The Monet example renders
exactly as the claim states; with the artist unset the production site
appears after the title, not before it. -/
theorem to_reference_order (a t y te d cs p fn : String) (h : a ≠ "") :
    to_reference ⟨fn, some t, some a, some y, some te, some cs, some p, some d⟩
      = some (a ++ ", " ++ t ++ ", " ++ y ++ ", " ++ te ++ ", " ++ d ++ ", " ++ cs) ∧
    to_reference ⟨fn, some t, none, some y, some te, some cs, some p, some d⟩
      = some (t ++ ", " ++ p ++ ", " ++ y ++ ", " ++ te ++ ", " ++ d ++ ", " ++ cs) := by
  constructor
  · simp [to_reference, data_isEmpty_false h, pyStr, String.append_assoc]
  · simp [to_reference, pyStr, String.append_assoc]

/-- Witness for `to_reference_order`: the Monet citation of the claim. -/
theorem to_reference_order_witness :
    to_reference ⟨"w.jpg", some "Water Lilies", some "Monet", some "1919",
        some "Oil on canvas", some "MoMA", some "Giverny", some "100x100cm"⟩
      = some "Monet, Water Lilies, 1919, Oil on canvas, 100x100cm, MoMA" := by
  have h := (to_reference_order "Monet" "Water Lilies" "1919" "Oil on canvas"
    "100x100cm" "MoMA" "Giverny" "w.jpg" (by decide)).1
  rw [h]
  decide

/-! ## Claim C10: partiality of to_reference -/

theorem opt_bind_const_none {α β : Type} (x : Option α) :
    (x.bind fun _ => (none : Option β)) = none := by
  cases x <;> rfl

/-- Claim C10: `to_reference` raises a `TypeError` (modelled as `none`)
whenever title, year, technique or dimensions is unset, and whenever artist
and production site are both unset; with every field set except the
conservation site it returns normally, a string ending in the literal text
`"None"`. -/
theorem to_reference_none_cases (img : CollectionImage) :
    ((img.title = none ∨ img.year = none ∨ img.technique = none ∨ img.dimensions = none) →
      to_reference img = none) ∧
    (img.artist = none → img.production_site = none → to_reference img = none) ∧
    (∀ t a y te p d, img.title = some t → img.artist = some a → img.year = some y →
      img.technique = some te → img.production_site = some p → img.dimensions = some d →
      img.conservation_site = none →
      ∃ s, to_reference img = some (s ++ "None")) := by
  obtain ⟨fn, ti, ar, yr, tq, cs, ps, dm⟩ := img
  refine ⟨?_, ?_, ?_⟩
  · rintro (h | h | h | h) <;> (dsimp only at h; subst h) <;>
      simp [to_reference, opt_bind_const_none]
  · intro h1 h2
    dsimp only at h1 h2
    subst h1 h2
    simp [to_reference, opt_bind_const_none]
  · intro t a y te p d h1 h2 h3 h4 h5 h6 h7
    dsimp only at h1 h2 h3 h4 h5 h6 h7
    subst h1 h2 h3 h4 h5 h6 h7
    cases hab : a.data.isEmpty <;> simp [to_reference, hab, pyStr] <;> exact ⟨_, rfl⟩

/-- Witness for `to_reference_none_cases`: a bare image fails, an image with
everything but the conservation site set renders with a trailing
`"None"`. -/
theorem to_reference_none_cases_witness :
    to_reference (bare "x.jpg") = none ∧
    (∃ s, to_reference ⟨"x.jpg", some "T", some "A", some "Y", some "Te",
        none, some "P", some "D"⟩ = some (s ++ "None")) :=
  ⟨(to_reference_none_cases (bare "x.jpg")).1 (Or.inl rfl),
   (to_reference_none_cases ⟨"x.jpg", some "T", some "A", some "Y", some "Te",
        none, some "P", some "D"⟩).2.2 "T" "A" "Y" "Te" "P" "D"
     rfl rfl rfl rfl rfl rfl rfl⟩
